import Mathlib

/-!
Verification development for the TikTok Shop review scraper (`app.py`).

The scraper's decision logic lives in one worker function
(`scrape_reviews_with_progress`) and several JavaScript snippets evaluated
in the page.  This file gives a shallow embedding of that logic:

* character/string utilities mirroring the JavaScript string and regex
  operations used by the embedded scripts (strings are processed as
  `List Char`; all inputs of interest are ASCII, where JS `length`,
  `trim`, `toLowerCase` and the character classes agree with this model);
* the content classifier (`has_content` evaluate, app.py lines 154-178);
* the review-card extractor (lines 332-450);
* the dedup accumulator (lines 459-463);
* the pagination click strategies (lines 551-664);
* a trace model of the job orchestrator: the sequence of writes the worker
  performs on the job dictionary, parameterised by the environment
  (import success, classifier answers per poll tick, per-page extraction
  results and pagination outcomes, exceptions).
-/

namespace TikTokScraper

/-! ## Character and string utilities (JS semantics on ASCII input) -/

/-- Lower-case an ASCII character (JS `toLowerCase` restricted to ASCII). -/
def lowerC (c : Char) : Char :=
  if 65 ≤ c.toNat ∧ c.toNat ≤ 90 then Char.ofNat (c.toNat + 32) else c

/-- JS `\d`. -/
def isDigitC (c : Char) : Bool := 48 ≤ c.toNat && c.toNat ≤ 57

/-- ASCII letter. -/
def isAlphaC (c : Char) : Bool :=
  (65 ≤ c.toNat && c.toNat ≤ 90) || (97 ≤ c.toNat && c.toNat ≤ 122)

/-- JS `[A-Za-z0-9]`. -/
def isAlnumC (c : Char) : Bool := isAlphaC c || isDigitC c

/-- JS word character `\w` = `[A-Za-z0-9_]`. -/
def isWordC (c : Char) : Bool := isAlnumC c || c = '_'

/-- JS `\s` on ASCII input. -/
def isSpaceC (c : Char) : Bool :=
  c = ' ' || c = '\t' || c = '\n' || c = '\r' || c = '\x0b' || c = '\x0c'

/-- JS `String.prototype.trim` on ASCII input. -/
def trimL (l : List Char) : List Char :=
  ((l.dropWhile isSpaceC).reverse.dropWhile isSpaceC).reverse

/-- JS `haystack.includes(pattern)` (substring occurrence). -/
def hasSub : List Char → List Char → Bool
  | _, [] => true
  | [], _ :: _ => false
  | h :: t, p :: q => if List.isPrefixOf (p :: q) (h :: t) then true else hasSub t (p :: q)

/-- Case-insensitive prefix test; `w` is given already lower-cased. -/
def startsCI (l w : List Char) : Bool :=
  List.isPrefixOf w ((l.take w.length).map lowerC)

/-- JS `text.split('\n')`. -/
def splitNL : List Char → List (List Char)
  | [] => [[]]
  | '\n' :: t => [] :: splitNL t
  | c :: t =>
    match splitNL t with
    | [] => [[c]]
    | h :: r => (c :: h) :: r

/-- `fullText.split('\n').map(l => l.trim()).filter(l => l)` (app.py line 364). -/
def linesOf (l : List Char) : List (List Char) :=
  ((splitNL l).map trimL).filter (fun s => !s.isEmpty)

/-- Decimal digit character for `n < 10`. -/
def digitChar (n : Nat) : Char := Char.ofNat (48 + n)

/-- Decimal representation of a natural number, fuel-driven
(the fuel `n+1` always suffices since a number has at most `n+1` digits). -/
def natStrAux : Nat → Nat → List Char
  | 0, _ => []
  | fuel + 1, n => if n < 10 then [digitChar n] else natStrAux fuel (n / 10) ++ [digitChar (n % 10)]

/-- JS `String(n)` for a natural number. -/
def natStr (n : Nat) : String := (natStrAux (n + 1) n).asString

/-- Numeric value of a digit string (JS `parseFloat` integer part is exact
for the small numerals appearing in rating labels). -/
def natOfDigits (l : List Char) : Nat := l.foldl (fun n c => n * 10 + (c.toNat - 48)) 0

/-! ## Regex scanners used by the extractor

Each JS regex used by the page scripts is a deterministic pattern (every
quantifier is effectively possessive on the character classes involved), so
a greedy left-to-right scanner is an exact model; comments note the check. -/

/-- Match `\d{4}-\d{2}-\d{2}` at the head of the list, returning the matched
characters. -/
def isoAt : List Char → Option (List Char)
  | d1 :: d2 :: d3 :: d4 :: '-' :: e1 :: e2 :: '-' :: f1 :: f2 :: _ =>
    if ([d1, d2, d3, d4, e1, e2, f1, f2].all isDigitC) then
      some [d1, d2, d3, d4, '-', e1, e2, '-', f1, f2]
    else none
  | _ => none

/-- Leftmost match of `/\d{4}-\d{2}-\d{2}/` (app.py lines 355 and 382). -/
def firstISO : List Char → Option (List Char)
  | [] => none
  | c :: t =>
    match isoAt (c :: t) with
    | some m => some m
    | none => firstISO t

/-- `/^\d{4}-\d{2}-\d{2}$/` (skip pattern, app.py line 411). -/
def isoExact (l : List Char) : Bool :=
  match l with
  | [d1, d2, d3, d4, '-', e1, e2, '-', f1, f2] =>
    [d1, d2, d3, d4, e1, e2, f1, f2].all isDigitC
  | _ => false

/-- Match `[A-Za-z0-9]\*+[A-Za-z0-9]` at the head (container search pattern,
app.py line 356).  The star run is maximal; backtracking cannot help because
a shorter run leaves a `*` where an alphanumeric is required. -/
def maskedPlusAt : List Char → Bool
  | a :: rest =>
    isAlnumC a &&
      (let stars := rest.takeWhile (fun c => c = '*')
       decide (1 ≤ stars.length) &&
         (match rest.drop stars.length with
          | b :: _ => isAlnumC b
          | [] => false))
  | [] => false

/-- `/[A-Za-z0-9]\*+[A-Za-z0-9]/.test(text)`. -/
def maskedPlusTest : List Char → Bool
  | [] => false
  | c :: t => maskedPlusAt (c :: t) || maskedPlusTest t

/-- Match `[A-Za-z0-9]\*{2,}[A-Za-z0-9]` at the head, returning the matched
characters (username pattern, app.py line 369). -/
def masked2At : List Char → Option (List Char)
  | a :: rest =>
    if isAlnumC a then
      let stars := rest.takeWhile (fun c => c = '*')
      if 2 ≤ stars.length then
        match rest.drop stars.length with
        | b :: _ => some (a :: (stars ++ [b]))
        | [] => none
      else none
    else none
  | [] => none

/-- Leftmost match of `/([A-Za-z0-9]\*{2,}[A-Za-z0-9])/`. -/
def firstMasked2 : List Char → Option (List Char)
  | [] => none
  | c :: t =>
    match masked2At (c :: t) with
    | some m => some m
    | none => firstMasked2 t

/-- `/^[A-Za-z0-9]\*{2,}[A-Za-z0-9]$/` (skip pattern, app.py line 415). -/
def masked2Exact (l : List Char) : Bool :=
  match l with
  | a :: rest =>
    isAlnumC a &&
      (let stars := rest.takeWhile (fun c => c = '*')
       decide (2 ≤ stars.length) &&
         (match rest.drop stars.length with
          | [b] => isAlnumC b
          | _ => false))
  | [] => false

/-- Match `\d+\/\d+\/\d+` at the head (`\d+` greedy; a shorter digit run
would leave a digit where `/` is required, so greed is exact). -/
def slashDateAt (l : List Char) : Bool :=
  let d1 := l.takeWhile isDigitC
  decide (1 ≤ d1.length) &&
    (match l.drop d1.length with
     | '/' :: r2 =>
       let d2 := r2.takeWhile isDigitC
       decide (1 ≤ d2.length) &&
         (match r2.drop d2.length with
          | '/' :: r3 => decide (1 ≤ (r3.takeWhile isDigitC).length)
          | _ => false)
     | _ => false)

/-- `/\d+\/\d+\/\d+/.test(text)` (app.py line 357). -/
def slashDateTest : List Char → Bool
  | [] => false
  | c :: t => slashDateAt (c :: t) || slashDateTest t

/-- The time-unit alternation `(day|week|month|year|hour|min)`; the branches
are pairwise prefix-free, so at most one can match at a position. -/
def unitNames : List (List Char) :=
  [['d', 'a', 'y'], ['w', 'e', 'e', 'k'], ['m', 'o', 'n', 't', 'h'],
   ['y', 'e', 'a', 'r'], ['h', 'o', 'u', 'r'], ['m', 'i', 'n']]

/-- Case-insensitively match one of the unit names at the head, returning the
original (not lower-cased) matched characters. -/
def findUnit (l : List Char) : Option (List Char) :=
  (unitNames.find? (fun u => startsCI l u)).map (fun u => l.take u.length)

/-- Match `\d+\s*(day|week|month|year|hour|min)s?\s*ago` (case-insensitive)
at the head, returning the matched characters (app.py line 386). -/
def relDateAt (l : List Char) : Option (List Char) :=
  let ds := l.takeWhile isDigitC
  if ds.isEmpty then none
  else
    let r1 := l.drop ds.length
    let ws1 := r1.takeWhile isSpaceC
    let r2 := r1.drop ws1.length
    match findUnit r2 with
    | none => none
    | some u =>
      let r3 := r2.drop u.length
      let sPart := match r3 with
        | c :: _ => if lowerC c = 's' then [c] else []
        | [] => []
      let r4 := r3.drop sPart.length
      let ws2 := r4.takeWhile isSpaceC
      let r5 := r4.drop ws2.length
      match r5 with
      | a :: g :: o :: _ =>
        if lowerC a = 'a' && lowerC g = 'g' && lowerC o = 'o' then
          some (ds ++ ws1 ++ u ++ sPart ++ ws2 ++ [a, g, o])
        else none
      | _ => none

/-- Leftmost match of the relative-date regex. -/
def firstRelDate : List Char → Option (List Char)
  | [] => none
  | c :: t =>
    match relDateAt (c :: t) with
    | some m => some m
    | none => firstRelDate t

/-- `/^\d+\s*(day|week|month|year|hour|min)/i` (skip pattern, app.py line 412). -/
def relDateStart (l : List Char) : Bool :=
  let ds := l.takeWhile isDigitC
  decide (1 ≤ ds.length) &&
    (let r1 := l.drop ds.length
     let ws := r1.takeWhile isSpaceC
     (findUnit (r1.drop ws.length)).isSome)

/-! ## Review Card Extractor (app.py lines 332-450, the per-page evaluate) -/

/-- One extracted review record, as pushed by the page script
(app.py lines 436-442). -/
structure Review where
  username : String
  rating : Nat
  review_text : String
  date : String
  item_variant : String
deriving DecidableEq

/-- The per-anchor input to the extractor: the rating element's `aria-label`
and the `innerText` of its ancestor chain (parent first). -/
structure Anchor where
  aria : String
  ancestors : List String
deriving DecidableEq

/-- Match `Rating:\s*(\d+(?:\.\d+)?)\s*out of 5` at the head; the result is
the captured number as (integer part, fractional digit characters).
`\d+` and `\.\d+` are greedy; a shorter munch always leaves a digit or dot
where whitespace or `out of 5` is required, so greed is exact
(app.py line 343). -/
def ratingMatchAt (l : List Char) : Option (Nat × List Char) :=
  if List.isPrefixOf "Rating:".data l then
    let r1 := l.drop 7
    let r2 := r1.dropWhile isSpaceC
    let ds := r2.takeWhile isDigitC
    if ds.isEmpty then none
    else
      let r3 := r2.drop ds.length
      let fr := match r3 with
        | '.' :: t => let fs := t.takeWhile isDigitC
                      if fs.isEmpty then [] else '.' :: fs
        | _ => []
      let r4 := r3.drop fr.length
      let r5 := r4.dropWhile isSpaceC
      if List.isPrefixOf "out of 5".data r5 then some (natOfDigits ds, fr.drop 1)
      else none
  else none

/-- Leftmost match of the rating regex in the aria-label. -/
def findRatingNum : List Char → Option (Nat × List Char)
  | [] => none
  | c :: t =>
    match ratingMatchAt (c :: t) with
    | some m => some m
    | none => findRatingNum t

/-- JS `Math.round` of the captured decimal `i.f₁f₂…` (exact: the value's
fractional part is ≥ 1/2 iff its first fractional digit is ≥ 5; JS ties
round up).  For the short numerals in rating labels the double-precision
`parseFloat` is also exact. -/
def roundRating : Nat × List Char → Nat
  | (i, f) =>
    match f with
    | c :: _ => if 53 ≤ c.toNat then i + 1 else i
    | [] => i

/-- `ratingMatch ? Math.round(parseFloat(ratingMatch[1])) : 0`
(app.py line 344). -/
def ratingFromAria (aria : String) : Nat :=
  match findRatingNum aria.data with
  | some m => roundRating m
  | none => 0

/-- Container condition of the upward walk (app.py lines 352-359):
flattened text longer than 40 and containing an ISO date, a masked
username, a slash date, or the substring `ago`. -/
def containerCond (t : String) : Bool :=
  decide (40 < t.data.length) &&
    ((firstISO t.data).isSome || maskedPlusTest t.data || slashDateTest t.data ||
      hasSub t.data "ago".data)

/-- The bounded upward walk (app.py lines 348-362): up to 12 parent steps;
stop at the first ancestor satisfying `containerCond`; if the chain runs out
the anchor is skipped (`if (!container) return`); if 12 ancestors exist and
none matches, the 12th ancestor is kept as container anyway. -/
def walkAux : Nat → List String → Option String
  | _, [] => none
  | 0, _ :: _ => none
  | n + 1, t :: rest =>
    if containerCond t then some t
    else if n = 0 then some t
    else walkAux n rest

/-- `walkUp` = the walk with the source's step bound of 12. -/
def walkUp (anc : List String) : Option String := walkAux 12 anc

/-- Username extraction (app.py lines 367-378): masked pattern first, else
the first line if short, not starting with a digit and without `Rating`,
else the literal `Anonymous`. -/
def parseUsername (full : List Char) (lines : List (List Char)) : List Char :=
  match firstMasked2 full with
  | some m => m
  | none =>
    match lines with
    | first :: _ =>
      if decide (first.length < 30) && decide (1 < first.length) &&
          !(match first with | c :: _ => isDigitC c | [] => false) &&
          !hasSub first "Rating".data then
        first
      else "Anonymous".data
    | [] => "Anonymous".data

/-- Date extraction (app.py lines 381-388): ISO date first, else the
relative-date phrase, else empty. -/
def parseDate (full : List Char) : List Char :=
  match firstISO full with
  | some m => m
  | none =>
    match firstRelDate full with
    | some m => m
    | none => []

/-- `line.replace(/^Item:\s*/i, '')`: drop the 5-character label and the
following whitespace. -/
def afterItemLabel (line : List Char) : List Char :=
  (line.drop 5).dropWhile isSpaceC

/-- Item-variant extraction (app.py lines 391-403): first line starting with
`Item:` (value after the label, or the next line when that value is empty),
else first line starting with `Color:`/`Size:`/`Variant:`/`Style:`. -/
def parseItemVariant : List (List Char) → List Char
  | [] => []
  | line :: rest =>
    if startsCI line "item:".data then
      let v := afterItemLabel line
      if v.isEmpty then
        match rest with
        | nxt :: _ => nxt
        | [] => []
      else v
    else if startsCI line "color:".data || startsCI line "size:".data ||
        startsCI line "variant:".data || startsCI line "style:".data then
      line
    else parseItemVariant rest

/-- The skip patterns for body lines (app.py lines 408-416). -/
def skipLine (line : List Char) : Bool :=
  startsCI line "verified".data || startsCI line "helpful".data ||
    startsCI line "reply".data || startsCI line "report".data ||
    startsCI line "like".data || startsCI line "share".data ||
    startsCI line "item:".data || startsCI line "color:".data ||
    startsCI line "size:".data || startsCI line "variant:".data ||
    startsCI line "style:".data ||
    isoExact line ||
    relDateStart line ||
    (!line.isEmpty && line.all isDigitC) ||
    List.isPrefixOf "Rating:".data line ||
    masked2Exact line

/-- Body extraction (app.py lines 418-432): the longest line that is at
least 5 characters and is not the username, item variant, date, or a
metadata line; the first longest wins ties. -/
def bestBody (lines : List (List Char)) (username date variant : List Char) : List Char :=
  lines.foldl
    (fun best line =>
      if line.length < 5 then best
      else if line = username then best
      else if line = variant then best
      else if line = date then best
      else if skipLine line then best
      else if best.length < line.length then line
      else best)
    []

/-- The raw (pre-placeholder) body the extractor isolates for an anchor;
empty when the anchor is skipped or no line qualifies. -/
def rawBodyOf (a : Anchor) : String :=
  match walkUp a.ancestors with
  | none => ""
  | some fullText =>
    let lines := linesOf fullText.data
    (bestBody lines (parseUsername fullText.data lines) (parseDate fullText.data)
      (parseItemVariant lines)).asString

/-- The whole per-anchor extraction (app.py lines 340-444).  `none` models
an anchor that pushes no review (container walk ran off the tree, or
neither a body line nor a positive rating was found — line 435). -/
def extractAnchor (a : Anchor) : Option Review :=
  match walkUp a.ancestors with
  | none => none
  | some fullText =>
    let rating := ratingFromAria a.aria
    let lines := linesOf fullText.data
    let username := parseUsername fullText.data lines
    let date := parseDate fullText.data
    let variant := parseItemVariant lines
    let body := bestBody lines username date variant
    if decide (1 ≤ body.length) || decide (0 < rating) then
      some { username := username.asString
             rating := rating
             review_text := if body.isEmpty then "(no text)" else body.asString
             date := date.asString
             item_variant := variant.asString }
    else none

/-- The per-page extraction: one pushed review per anchor that survives
(`ratingElements.forEach`, app.py line 340). -/
def extractPage (anchors : List Anchor) : List Review :=
  anchors.filterMap extractAnchor

/-! ## Dedup Accumulator (app.py lines 459-463) -/

/-- The accumulator: the `seen_reviews` key set (modelled as a list, only
membership is used) and the running `reviews` list. -/
structure AccState where
  seen : List String
  reviews : List Review
deriving DecidableEq

/-- The dedup fingerprint `r['review_text'][:50]` (Python slicing; for the
empty string the code's `if r['review_text']` guard produces `''`, which the
slice gives as well). -/
def fpKey (r : Review) : String := (r.review_text.data.take 50).asString

/-- Processing of one review (app.py lines 460-463): dropped when the key is
empty or already seen, otherwise the key is recorded and the review
appended. -/
def mergeOne (st : AccState) (r : Review) : AccState :=
  if fpKey r ≠ "" ∧ fpKey r ∉ st.seen then
    { seen := fpKey r :: st.seen, reviews := st.reviews ++ [r] }
  else st

/-- Merging one page's extraction result (`for r in page_reviews`). -/
def mergePage (st : AccState) (rs : List Review) : AccState :=
  rs.foldl mergeOne st

/-- The same merge without the empty-key guard (only `key not in seen` is
tested); used to state that the empty-fingerprint branch is dead on
extractor output. -/
def mergeOneNoEmpty (st : AccState) (r : Review) : AccState :=
  if fpKey r ∉ st.seen then
    { seen := fpKey r :: st.seen, reviews := st.reviews ++ [r] }
  else st

/-- Page merge built on `mergeOneNoEmpty`. -/
def mergePageNoEmpty (st : AccState) (rs : List Review) : AccState :=
  rs.foldl mergeOneNoEmpty st

/-- The whole job's accumulation: every page's anchors are extracted and
merged in order, starting from the empty accumulator. -/
def finalState (pages : List (List Anchor)) : AccState :=
  pages.foldl (fun st p => mergePage st (extractPage p)) ⟨[], []⟩

/-- The job's final `reviews` list. -/
def finalReviews (pages : List (List Anchor)) : List Review :=
  (finalState pages).reviews

/-! ## Pagination Navigator (app.py lines 551-664, the click evaluate) -/

/-- One DOM element as seen by the pagination script: tag (lower-case),
`role` attribute, `innerText`, `textContent`, the joined trimmed direct text
nodes, `aria-label` (empty when absent, as `(…)||''` produces), the bounding
rectangle, the disabled signals, class list, child-element count, resolved
`font-weight` (`parseInt(style.fontWeight) || 400`) and `aria-current`. -/
structure El where
  tag : String
  role : String
  innerText : String
  textContent : String
  directText : String
  ariaLabel : String
  width : Int
  height : Int
  top : Int
  disabledProp : Bool
  ariaDisabled : String
  classes : List String
  hasDisabledAttr : Bool
  childCount : Nat
  fontWeight : Nat
  ariaCurrent : String
deriving DecidableEq

/-- Membership in `querySelectorAll('button, a, [role="button"]')`. -/
def isClickableSel (e : El) : Bool := e.tag = "button" || e.tag = "a" || e.role = "button"

/-- Membership in `querySelectorAll('span, li, div')`. -/
def isSpanLiDiv (e : El) : Bool := e.tag = "span" || e.tag = "li" || e.tag = "div"

/-- Membership in `querySelectorAll('button, a, span, [role="button"]')`. -/
def isSmallSel (e : El) : Bool :=
  e.tag = "button" || e.tag = "a" || e.tag = "span" || e.role = "button"

/-- `(el.innerText || el.textContent || '').trim()` (strategy 1). -/
def textOf (e : El) : String :=
  (trimL (if e.innerText ≠ "" then e.innerText else e.textContent).data).asString

/-- `(el.innerText || '').trim()`. -/
def innerTrim (e : El) : String := (trimL e.innerText.data).asString

/-- `\bnext\b` boundary-and-word test at the head of the list. -/
def wordAtHead (w l : List Char) : Bool :=
  List.isPrefixOf w l &&
    (match l.drop w.length with
     | c :: _ => !isWordC c
     | [] => true)

/-- Scan for `\bnext\b` with the previous character tracked for the left
boundary; the haystack is already lower-cased. -/
def containsWordGo (w : List Char) : Option Char → List Char → Bool
  | _, [] => false
  | prev, c :: t =>
    ((match prev with
      | some p => !isWordC p
      | none => true) && wordAtHead w (c :: t)) ||
      containsWordGo w (some c) t

/-- `/\bnext\b/i.test(text)` (app.py line 556). -/
def wordNext (s : String) : Bool :=
  containsWordGo "next".data none (s.data.map lowerC)

/-- The strategy-1 disabled test (app.py lines 559-560). -/
def fullDisabled (e : El) : Bool :=
  e.disabledProp || e.ariaDisabled = "true" || e.classes.contains "disabled" ||
    e.hasDisabledAttr

/-- The disabled test of strategies 2-5 (`el.disabled || aria-disabled`). -/
def basicDisabled (e : El) : Bool := e.disabledProp || e.ariaDisabled = "true"

/-- Visibility filter of strategies 1, 3 and 4. -/
def visOk (e : El) : Bool := 0 < e.width && 0 < e.height && 200 < e.top

/-- Strategy 1 (app.py lines 552-568): a clickable whose text contains the
word `next`, visible, below 200px, not disabled. -/
def nextTextCand (e : El) : Bool :=
  isClickableSel e && wordNext (textOf e) && visOk e && !fullDisabled e

/-- The first pagination strategy in the code: returns `next_text` when a
candidate exists. -/
def findNextText (els : List El) : Option String :=
  if els.any nextTextCand then some "next_text" else none

/-- Strategy 2, first pass (app.py lines 571-589): a clickable whose direct
text or inner text equals the target page number, narrow (<100px), visible,
below 200px, not disabled. -/
def pageNumCand (target : Nat) (e : El) : Bool :=
  isClickableSel e && (e.directText = natStr target || innerTrim e = natStr target) &&
    0 < e.width && e.width < 100 && 0 < e.height && 200 < e.top && !basicDisabled e

/-- Strategy 2, second pass (app.py lines 591-602): a childless
span/li/div whose text equals the target page number, <80px wide, visible,
below 200px (no disabled check). -/
def pageNumSpanCand (target : Nat) (e : El) : Bool :=
  isSpanLiDiv e && innerTrim e = natStr target && e.childCount = 0 &&
    0 < e.width && e.width < 80 && 0 < e.height && 200 < e.top

/-- The second pagination strategy in the code (page-number click). -/
def findPageNumber (els : List El) (target : Nat) : Option String :=
  if els.any (pageNumCand target) then some "page_number"
  else if els.any (pageNumSpanCand target) then some "page_number_span"
  else none

/-- Strategy 3 (app.py lines 605-618): a clickable whose aria-label
contains `next` (case-insensitive), visible, below 200px, not disabled. -/
def ariaNextCand (e : El) : Bool :=
  isClickableSel e && hasSub (e.ariaLabel.data.map lowerC) "next".data && visOk e &&
    !basicDisabled e

/-- The third pagination strategy in the code. -/
def findAriaNext (els : List El) : Option String :=
  if els.any ariaNextCand then some "aria_next" else none

/-- Strategy 4 (app.py lines 621-634): single arrow glyph text. -/
def arrowCand (e : El) : Bool :=
  isClickableSel e &&
    (innerTrim e = ">" || innerTrim e = "›" || innerTrim e = "»" ||
      innerTrim e = "→" || innerTrim e = "▶") &&
    visOk e && !basicDisabled e

/-- The fourth pagination strategy in the code. -/
def findArrow (els : List El) : Option String :=
  if els.any arrowCand then some "arrow_char" else none

/-- The small-elements list of strategy 5 (app.py lines 637-640). -/
def smallBtns (els : List El) : List El :=
  els.filter (fun e =>
    isSmallSel e && 0 < e.width && e.width < 80 && 0 < e.height && e.height < 60 &&
      300 < e.top)

/-- The active/current test of strategy 5 (app.py lines 646-650). -/
def isActiveBtn (e : El) : Bool :=
  600 ≤ e.fontWeight || e.classes.contains "active" || e.ariaCurrent = "true" ||
    e.ariaCurrent = "page"

/-- Strategy-5 scan (app.py lines 641-661): find the active current-page
element in the filtered list and click the element after it; skip and keep
scanning when it is last or its successor is disabled. -/
def activeSibGo (cur : Nat) : List El → Option String
  | [] => none
  | [_] => none
  | e :: nxt :: rest =>
    if innerTrim e = natStr cur && isActiveBtn e && !basicDisabled nxt then
      some "active_sibling"
    else activeSibGo cur (nxt :: rest)

/-- The fifth pagination strategy in the code. -/
def findActiveSibling (els : List El) (cur : Nat) : Option String :=
  activeSibGo cur (smallBtns els)

/-- The whole click evaluate (app.py lines 551-664): the five strategies in
the code's order, each tried only when all earlier ones found no
candidate.  `target` is `next_page = current_page + 1` (line 491) and
`cur` is the interpolated `current_page`. -/
def paginationClick (els : List El) (target cur : Nat) : Option String :=
  match findNextText els with
  | some r => some r
  | none =>
    match findPageNumber els target with
    | some r => some r
    | none =>
      match findAriaNext els with
      | some r => some r
      | none =>
        match findArrow els with
        | some r => some r
        | none => findActiveSibling els cur

/-! ## Content Classifier (app.py lines 154-178, the `has_content` evaluate) -/

/-- What the classifier script can observe of a rendered page: the counts of
the canonical `[aria-label*="Rating:"][aria-label*="out of 5 stars"]`
elements and of the generic `[aria-label*="Rating"]` elements, the first
`h1`'s text (if any), presence of a price-like element, the document title,
and presence of an add-to-cart control. -/
structure PageView where
  canonicalRatings : Nat
  genericRatings : Nat
  h1Text : Option String
  hasPrice : Bool
  docTitle : String
  hasAddToCart : Bool
deriving DecidableEq

/-- `document.title.toLowerCase()` contains one of the gate keywords
(app.py line 168). -/
def titleHasGateWord (title : String) : Bool :=
  let tl := title.data.map lowerC
  hasSub tl "security".data || hasSub tl "verify".data || hasSub tl "captcha".data

/-- The classifier script (app.py lines 154-178): returns `'reviews'`,
`'ratings'`, `'product'` or `null`. -/
def hasContent (pv : PageView) : Option String :=
  if 0 < pv.canonicalRatings then some "reviews"
  else if 3 ≤ pv.genericRatings then some "ratings"
  else
    let productByTitle :=
      match pv.h1Text with
      | some t => decide (5 < (trimL t.data).length) && pv.hasPrice &&
          !titleHasGateWord pv.docTitle
      | none => false
    if productByTitle then some "product"
    else if pv.hasAddToCart then some "product"
    else none

/-- The spec's `GateState` (spec.md 4.1): `ReviewsVisible` carries the
ratings-only flag of rule 2. -/
inductive GateState
  | Gated
  | ReviewsVisible (ratingsOnly : Bool)
  | ProductVisible
deriving DecidableEq

/-- Modelled from the spec (spec.md 4.1): the five ordered rules of the
Content Classifier, first match wins. -/
def classifySpec (pv : PageView) : GateState :=
  if 0 < pv.canonicalRatings then .ReviewsVisible false
  else if 3 ≤ pv.genericRatings then .ReviewsVisible true
  else if (match pv.h1Text with
           | some t => decide (5 < (trimL t.data).length)
           | none => false) && pv.hasPrice && !titleHasGateWord pv.docTitle then
    .ProductVisible
  else if pv.hasAddToCart then .ProductVisible
  else .Gated

/-- Reading of the script's string result as a `GateState` (`null` and any
unexpected value are the gated case, matching the caller's truthiness
test). -/
def interpContent : Option String → GateState
  | some "reviews" => .ReviewsVisible false
  | some "ratings" => .ReviewsVisible true
  | some "product" => .ProductVisible
  | _ => .Gated

/-! ## Job Orchestrator trace model (app.py lines 40-702)

`scrape_reviews_with_progress` is the only writer of a job's state (the
HTTP handlers only read).  We model a run as the sequence of writes it
performs on the job dictionary.  Writes to fields whose values no claim
depends on (`_page`, `_browser`, screenshots, product info, debug info,
`_browser_closed`) are recorded as `internal` writes with the field name.
The environment fixes everything the worker observes: whether the
playwright import succeeds, whether browser launch/navigation raises, the
classifier's observation at each poll tick of the CAPTCHA wait, the page
limit, each page's extraction result and pagination outcome, whether page
evaluation raises on a given page, and whether the final `browser.close()`
raises.  Timing is abstracted to `ticks`, the number of classifier polls
that fit into the 180-second bound. -/

/-- One write to the job dictionary. -/
inductive JWrite
  | status (s : String)
  | message (s : String)
  | progress (n : Nat)
  | currentPage (n : Nat)
  | maxPagesField (n : Nat)
  | reviewsField (rs : List Review)
  | reviewCount (n : Nat)
  | internal (name : String)
deriving DecidableEq

/-- Everything the worker observes during one run. -/
structure ScrapeEnv where
  importOk : Bool
  launchOk : Bool
  ticks : Nat
  pages : Nat → PageView
  maxPages : Nat
  pageReviews : Nat → List Review
  clickResult : Nat → Option String
  raiseAt : Nat → Bool
  closeOk : Bool
  errText : String

/-- The CAPTCHA wait loop (app.py lines 112-187): each tick refreshes the
screenshot, then evaluates the classifier; content visible (a truthy
string) breaks with success; the time bound is `ticks` iterations. -/
def captchaLoop : Nat → (Nat → PageView) → List JWrite × Bool
  | 0, _ => ([], false)
  | n + 1, pg =>
    let w := [JWrite.internal "_screenshot", JWrite.internal "_screenshot_updated"]
    if (hasContent (pg 0)).isSome then (w, true)
    else
      let r := captchaLoop n (fun t => pg (t + 1))
      (w ++ r.1, r.2)

/-- `f'Scraping page {current_page}...'` (app.py line 319). -/
def pageMessage (n : Nat) : String := "Scraping page " ++ natStr n ++ "..."

/-- The scraping loop (app.py lines 316-687), structurally recursive on
`remaining = max_pages + 1 - current_page`, so the `while current_page <=
max_pages` guard is `remaining > 0` and the `current_page >= max_pages`
break (line 468) is `remaining = 1`.  Each iteration writes current page,
max pages, message and progress (lines 317-320), merges the page's
extraction result and publishes the review list and count (lines 459-466);
a raising page evaluation aborts to the exception handler (`none`);
otherwise the loop breaks at the page limit, advances on a successful
click, or breaks with the no-more-pages message (lines 666-687). -/
def scrapeGo (env : ScrapeEnv) : Nat → Nat → AccState → List JWrite × Option AccState
  | 0, _, st => ([], some st)
  | r + 1, cur, st =>
    let head := [JWrite.currentPage cur, JWrite.maxPagesField env.maxPages,
      JWrite.message (pageMessage cur), JWrite.progress (cur * 100 / env.maxPages)]
    if env.raiseAt cur then (head, none)
    else
      let st2 := mergePage st (env.pageReviews cur)
      let w := head ++ [JWrite.reviewsField st2.reviews, JWrite.reviewCount st2.reviews.length]
      if r = 0 then (w, some st2)
      else
        match env.clickResult cur with
        | some _ =>
          let rest := scrapeGo env r (cur + 1) st2
          (w ++ rest.1, rest.2)
        | none => (w ++ [JWrite.message "No more pages found"], some st2)

/-- Writes before the `try` block (app.py lines 43-44). -/
def startWrites : List JWrite :=
  [JWrite.status "starting", JWrite.message "Launching browser..."]

/-- Writes between browser launch and the CAPTCHA wait loop
(app.py lines 79-100). -/
def preCaptchaWrites : List JWrite :=
  [JWrite.internal "_page", JWrite.internal "_browser", JWrite.status "captcha",
   JWrite.message "Loading page...",
   JWrite.message "Please solve the CAPTCHA if shown...",
   JWrite.internal "_screenshot", JWrite.internal "_screenshot_updated"]

/-- Writes between a solved CAPTCHA and the scraping loop
(app.py lines 200-310). -/
def preLoopWrites : List JWrite :=
  [JWrite.status "scraping", JWrite.message "CAPTCHA solved! Scraping reviews...",
   JWrite.internal "_screenshot", JWrite.message "Finding reviews section...",
   JWrite.internal "product_title", JWrite.internal "product_image",
   JWrite.internal "_dom_debug"]

/-- The whole run of `scrape_reviews_with_progress` as a write trace.
Paths: import failure (lines 46-51); an exception before the wait loop,
handled at lines 696-702; CAPTCHA timeout (lines 189-197); an exception
during the loop (same handler); and normal completion (lines 689-694),
where a raising `browser.close()` at line 693 reaches the handler after the
job was already marked complete. -/
def runJob (env : ScrapeEnv) : List JWrite :=
  if !env.importOk then
    startWrites ++ [JWrite.status "error", JWrite.message "Playwright not installed."]
  else if !env.launchOk then
    startWrites ++ [JWrite.status "error", JWrite.message ("Error: " ++ env.errText),
      JWrite.internal "_browser_closed"]
  else
    let c := captchaLoop env.ticks env.pages
    let pre := startWrites ++ preCaptchaWrites ++ c.1
    if !c.2 then
      pre ++ [JWrite.status "error",
        JWrite.message "CAPTCHA was not solved in time. Please try again.",
        JWrite.internal "_browser_closed"]
    else
      let l := scrapeGo env env.maxPages 1 ⟨[], []⟩
      let pre2 := pre ++ preLoopWrites ++ l.1
      match l.2 with
      | none =>
        pre2 ++ [JWrite.status "error", JWrite.message ("Error: " ++ env.errText),
          JWrite.internal "_browser_closed"]
      | some st =>
        let fin := pre2 ++ [JWrite.status "complete",
          JWrite.message ("Done! Found " ++ natStr st.reviews.length ++ " reviews"),
          JWrite.progress 100]
        if env.closeOk then fin ++ [JWrite.internal "_browser_closed"]
        else fin ++ [JWrite.status "error", JWrite.message ("Error: " ++ env.errText),
          JWrite.internal "_browser_closed"]

/-! ### Trace observations -/

/-- A write that puts the job in a terminal status. -/
def isTerminalW : JWrite → Bool
  | .status s => s = "complete" || s = "error"
  | _ => false

/-- Number of terminal status writes in a trace. -/
def terminalCount (tr : List JWrite) : Nat := (tr.filter isTerminalW).length

/-- The writes performed after the first terminal status write. -/
def afterFirstTerminal (tr : List JWrite) : List JWrite :=
  (tr.dropWhile (fun w => !isTerminalW w)).drop 1

/-- The values of the `progress` writes of a trace, in order. -/
def progressValues (tr : List JWrite) : List Nat :=
  tr.filterMap (fun w =>
    match w with
    | .progress n => some n
    | _ => none)

/-- A `current_page` write: exactly one happens per scraping-loop
iteration (app.py line 317), so their count is the iteration count. -/
def isCurrentPageW : JWrite → Bool
  | .currentPage _ => true
  | _ => false

/-- Iteration count of the scraping loop in a trace. -/
def pageIterCount (tr : List JWrite) : Nat := (tr.filter isCurrentPageW).length

/-- Write kinds that the code performs after a terminal status write:
the status-transition block's own message/progress writes, the internal
browser-closed flag, and (only when closing the browser after completion
raises) a second terminal `error` status. -/
def allowedAfterTerminal : JWrite → Bool
  | .status s => s = "error"
  | .message _ => true
  | .progress _ => true
  | .internal _ => true
  | _ => false

/-- Writes emitted inside the scraping loop. -/
def isLoopW : JWrite → Bool
  | .currentPage _ => true
  | .maxPagesField _ => true
  | .message _ => true
  | .progress _ => true
  | .reviewsField _ => true
  | .reviewCount _ => true
  | _ => false

/-- Internal (underscore-field / product info) write. -/
def isInternalW : JWrite → Bool
  | .internal _ => true
  | _ => false

/-! ## Concrete instances used by counterexamples and witnesses -/

/-- A page exposing one canonical rating element (content visible). -/
def reviewsPV : PageView := ⟨1, 1, none, false, "", false⟩

/-- A fully gated page: no classifier rule fires. -/
def gatedPV : PageView := ⟨0, 0, none, false, "", false⟩

/-- Environment of the C2 counterexample: import and launch succeed, the
gate clears on the first poll, the page budget is 0 (loop skipped), and
`browser.close()` after completion raises. -/
def envC2 : ScrapeEnv :=
  { importOk := true, launchOk := true, ticks := 1, pages := fun _ => reviewsPV,
    maxPages := 0, pageReviews := fun _ => [], clickResult := fun _ => none,
    raiseAt := fun _ => false, closeOk := false, errText := "close failed" }

/-- The C2 witness environment: as `envC2` but the final close succeeds. -/
def envC2w : ScrapeEnv := { envC2 with closeOk := true }

/-- The C6 witness environment: the classifier never reports content
within the tick budget. -/
def envC6 : ScrapeEnv :=
  { importOk := true, launchOk := true, ticks := 2, pages := fun _ => gatedPV,
    maxPages := 1, pageReviews := fun _ => [], clickResult := fun _ => none,
    raiseAt := fun _ => false, closeOk := true, errText := "e" }

/-- A concrete DOM for the C1 counterexample: a page-number button `2` and
an eligible arrow button `>`, both visible pagination candidates, no
element with `Next` text or a `next` aria-label. -/
def c1PageBtn : El :=
  { tag := "button", role := "", innerText := "2", textContent := "2",
    directText := "2", ariaLabel := "", width := 30, height := 20, top := 500,
    disabledProp := false, ariaDisabled := "", classes := [],
    hasDisabledAttr := false, childCount := 0, fontWeight := 400, ariaCurrent := "" }

/-- The arrow button of the C1 counterexample. -/
def c1ArrowBtn : El :=
  { tag := "button", role := "", innerText := ">", textContent := ">",
    directText := ">", ariaLabel := "", width := 30, height := 20, top := 500,
    disabledProp := false, ariaDisabled := "", classes := [],
    hasDisabledAttr := false, childCount := 0, fontWeight := 400, ariaCurrent := "" }

/-- The C1 counterexample DOM. -/
def c1Dom : List El := [c1PageBtn, c1ArrowBtn]

/-- A concrete DOM for the C1 witness: two childless-looking small spans
`1` (bold, hence active) and `2`; only the active-sibling strategy finds a
candidate (the spans carry child elements, so the page-number span pass
rejects them). -/
def c1ActiveSpan : El :=
  { tag := "span", role := "", innerText := "1", textContent := "1",
    directText := "", ariaLabel := "", width := 30, height := 20, top := 400,
    disabledProp := false, ariaDisabled := "", classes := [],
    hasDisabledAttr := false, childCount := 1, fontWeight := 700, ariaCurrent := "" }

/-- The successor span of the C1 witness DOM. -/
def c1NextSpan : El :=
  { tag := "span", role := "", innerText := "2", textContent := "2",
    directText := "", ariaLabel := "", width := 30, height := 20, top := 400,
    disabledProp := false, ariaDisabled := "", classes := [],
    hasDisabledAttr := false, childCount := 1, fontWeight := 400, ariaCurrent := "" }

/-- The C1 witness DOM. -/
def c1WitnessDom : List El := [c1ActiveSpan, c1NextSpan]

/-- The walk ancestors, all failing the container condition. -/
def allAncestorsUnmatched (a : Anchor) : Bool :=
  a.ancestors.all (fun t => !containerCond t)

/-- The C3 counterexample anchor: 12 ancestors, none matching the container
condition. -/
def c3Anchor : Anchor := ⟨"Rating: 5 out of 5 stars", List.replicate 12 "short text"⟩

/-- The C3 witness anchor: the chain runs out after 2 ancestors. -/
def c3WitnessAnchor : Anchor := ⟨"x", ["a", "b"]⟩

/-- The C5 counterexample anchor: a syntactically valid rating label
claiming 6 of 5 stars. -/
def c5Anchor : Anchor :=
  ⟨"Rating: 6 out of 5 stars",
   ["J***n\n2024-01-02\nthis product is great and very useful indeed"]⟩

/-- The captured rating number does not exceed 5 (true in particular for
every label the target site actually renders). -/
def matchedAtMost5 (s : String) : Bool :=
  match findRatingNum s.data with
  | none => true
  | some (i, f) => decide (i < 5) || (decide (i = 5) && f.all (fun c => c = '0'))

/-- The C5 witness anchor (a genuine-shaped label, `4.5` rounding to 5). -/
def c5WitnessAnchor : Anchor :=
  ⟨"Rating: 4.5 out of 5 stars",
   ["K***m\n2024-03-04\nabsolutely wonderful item arrived quickly great"]⟩

/-- The review the extractor emits for the C5 witness anchor. -/
def c5WitnessReview : Review :=
  ⟨"K***m", 5, "absolutely wonderful item arrived quickly great", "2024-03-04", ""⟩

/-- A well-formed accumulator: review fingerprints are pairwise distinct
and all recorded in the seen set. -/
def goodAcc (st : AccState) : Prop :=
  (st.reviews.map fpKey).Nodup ∧ ∀ r ∈ st.reviews, fpKey r ∈ st.seen

/-- The C10 witness anchor: a valid container whose every line is metadata,
so no body line is isolatable. -/
def c10Anchor : Anchor :=
  ⟨"Rating: 5 out of 5 stars",
   ["J***n\n2024-01-02\nab\n12345678901234567890123456789012"]⟩

/-- The review the extractor emits for the C10 witness anchor. -/
def c10Review : Review := ⟨"J***n", 5, "(no text)", "2024-01-02", ""⟩

/-! ## Dedup Accumulator lemmas and claim C4 -/

theorem mergeOne_drop (st : AccState) (r : Review)
    (h : fpKey r = "" ∨ fpKey r ∈ st.seen) : mergeOne st r = st := by
  unfold mergeOne
  rw [if_neg]
  rintro ⟨h1, h2⟩
  cases h with
  | inl hh => exact h1 hh
  | inr hh => exact h2 hh

theorem mergeOne_seen_sub (st : AccState) (r : Review) :
    st.seen ⊆ (mergeOne st r).seen := by
  unfold mergeOne
  split
  · exact fun x hx => List.mem_cons_of_mem _ hx
  · exact fun x hx => hx

theorem mergePage_cons (st : AccState) (r : Review) (rs : List Review) :
    mergePage st (r :: rs) = mergePage (mergeOne st r) rs := rfl

theorem mergePage_seen_sub (rs : List Review) :
    ∀ st : AccState, st.seen ⊆ (mergePage st rs).seen := by
  induction rs with
  | nil => exact fun st x hx => hx
  | cons r rs ih =>
    intro st x hx
    rw [mergePage_cons]
    exact ih (mergeOne st r) (mergeOne_seen_sub st r hx)

theorem mergeOne_key_mem (st : AccState) (r : Review) :
    fpKey r = "" ∨ fpKey r ∈ (mergeOne st r).seen := by
  by_cases hk : fpKey r = ""
  · exact Or.inl hk
  · by_cases hm : fpKey r ∈ st.seen
    · exact Or.inr (mergeOne_seen_sub st r hm)
    · right
      unfold mergeOne
      rw [if_pos ⟨hk, hm⟩]
      exact List.mem_cons_self _ _

theorem mergePage_keys (rs : List Review) :
    ∀ (st : AccState) (r : Review), r ∈ rs →
      fpKey r = "" ∨ fpKey r ∈ (mergePage st rs).seen := by
  induction rs with
  | nil => intro st r hr; cases hr
  | cons a rs ih =>
    intro st r hr
    rw [mergePage_cons]
    rcases List.mem_cons.mp hr with h | h
    · subst h
      rcases mergeOne_key_mem st r with hk | hk
      · exact Or.inl hk
      · exact Or.inr (mergePage_seen_sub rs (mergeOne st r) hk)
    · exact ih (mergeOne st a) r h

theorem mergePage_noop (rs : List Review) :
    ∀ st : AccState, (∀ r ∈ rs, fpKey r = "" ∨ fpKey r ∈ st.seen) →
      mergePage st rs = st := by
  induction rs with
  | nil => intro st _; rfl
  | cons a rs ih =>
    intro st h
    rw [mergePage_cons, mergeOne_drop st a (h a (List.mem_cons_self _ _))]
    exact ih st (fun r hr => h r (List.mem_cons_of_mem _ hr))

/-- Claim C4: the Dedup Accumulator's merge (app.py lines 459-463) is
idempotent on page results — merging the same extraction result twice
yields exactly the same accumulator state (hence the same `reviews` length
and order) as merging it once — and one review is appended at the end of
the list exactly when its fingerprint is non-empty and unseen, and is
silently dropped otherwise (so the first occurrence keeps its position). -/
theorem claim_C4 :
    (∀ (st : AccState) (rs : List Review),
      mergePage (mergePage st rs) rs = mergePage st rs) ∧
    (∀ (st : AccState) (r : Review),
      mergeOne st r =
        if fpKey r ≠ "" ∧ fpKey r ∉ st.seen then
          { seen := fpKey r :: st.seen, reviews := st.reviews ++ [r] }
        else st) := by
  constructor
  · intro st rs
    exact mergePage_noop rs (mergePage st rs) (fun r hr => mergePage_keys rs st r hr)
  · intro st r
    rfl

/-! ## Content Classifier: claim C8 -/

/-- Claim C8: the classifier script (app.py lines 154-178) implements the
spec's five ordered rules with first match winning — its string result
reads back exactly as the spec's `GateState` decision — and in particular,
whenever the canonical explicit star-rating label is present, the result is
`'reviews'` and no weaker rule determines it. -/
theorem claim_C8 :
    (∀ pv : PageView, interpContent (hasContent pv) = classifySpec pv) ∧
    (∀ pv : PageView, 0 < pv.canonicalRatings → hasContent pv = some "reviews") := by
  constructor
  · intro pv
    by_cases h1 : 0 < pv.canonicalRatings
    · simp [hasContent, classifySpec, interpContent, h1]
    · by_cases h2 : 3 ≤ pv.genericRatings
      · simp [hasContent, classifySpec, interpContent, h1, h2]
      · cases hm : pv.h1Text with
        | none =>
          cases h4 : pv.hasAddToCart <;>
            simp [hasContent, classifySpec, interpContent, h1, h2, hm, h4]
        | some t =>
          cases hcond : (decide (5 < (trimL t.data).length) && pv.hasPrice &&
              !titleHasGateWord pv.docTitle) <;>
            cases h4 : pv.hasAddToCart <;>
              simp [hasContent, classifySpec, interpContent, h1, h2, hm, hcond, h4]
  · intro pv h
    simp [hasContent, h]

/-- Witness for C8 at a concrete page: one canonical rating element present
and every weaker signal absent still classifies as `'reviews'`. -/
theorem claim_C8_witness :
    hasContent ⟨2, 2, none, false, "", false⟩ = some "reviews" :=
  claim_C8.2 ⟨2, 2, none, false, "", false⟩ (by decide)

/-! ## Pagination Navigator: claim C1 -/

/-- Counterexample to C1: on a DOM holding an eligible arrow-glyph
candidate (the claim's strategy 2) and a page-number element, the code
clicks the page number — `page_number` is its second strategy, not a
variant tried last, and the arrow strategy never runs.  (The code also has
no SVG-icon strategy at all.) -/
theorem claim_C1_counterexample :
    paginationClick c1Dom 2 1 = some "page_number" ∧
      findArrow c1Dom = some "arrow_char" := by
  exact ⟨by decide, by decide⟩

/-- Claim C1 as amended: the code's strategy order is (1) word `next` in
the element text, (2) direct click of the page-number element for
`currentPageNumber + 1` (clickable elements, then childless span/li/div
elements), (3) aria-label containing `next`, (4) arrow glyphs, (5) the
element following the active current-page element in the filtered
small-element list; each later strategy runs only when every earlier one
found no candidate, and there is no SVG-icon strategy. -/
theorem claim_C1_amended :
    ∀ (els : List El) (target cur : Nat),
      ((findNextText els).isSome → paginationClick els target cur = findNextText els) ∧
      (findNextText els = none → (findPageNumber els target).isSome →
        paginationClick els target cur = findPageNumber els target) ∧
      (findNextText els = none → findPageNumber els target = none →
        (findAriaNext els).isSome → paginationClick els target cur = findAriaNext els) ∧
      (findNextText els = none → findPageNumber els target = none →
        findAriaNext els = none → (findArrow els).isSome →
        paginationClick els target cur = findArrow els) ∧
      (findNextText els = none → findPageNumber els target = none →
        findAriaNext els = none → findArrow els = none →
        paginationClick els target cur = findActiveSibling els cur) := by
  intro els target cur
  refine ⟨?_, ?_, ?_, ?_, ?_⟩
  · intro h
    rcases Option.isSome_iff_exists.mp h with ⟨r, hr⟩
    simp [paginationClick, hr]
  · intro h1 h2
    rcases Option.isSome_iff_exists.mp h2 with ⟨r, hr⟩
    simp [paginationClick, h1, hr]
  · intro h1 h2 h3
    rcases Option.isSome_iff_exists.mp h3 with ⟨r, hr⟩
    simp [paginationClick, h1, h2, hr]
  · intro h1 h2 h3 h4
    rcases Option.isSome_iff_exists.mp h4 with ⟨r, hr⟩
    simp [paginationClick, h1, h2, h3, hr]
  · intro h1 h2 h3 h4
    simp [paginationClick, h1, h2, h3, h4]

/-- Witness for the amended C1: with the four earlier strategies empty, the
click falls through to the active-sibling strategy. -/
theorem claim_C1_witness :
    paginationClick c1WitnessDom 2 1 = findActiveSibling c1WitnessDom 1 :=
  (claim_C1_amended c1WitnessDom 2 1).2.2.2.2 (by decide) (by decide) (by decide)
    (by decide)

/-! ## Extractor lemmas and claims C3, C5, C10 -/

theorem asString_eq_empty {l : List Char} : l.asString = "" ↔ l = [] := by
  constructor
  · intro h
    have := congrArg String.data h
    simpa [List.asString] using this
  · intro h; subst h; rfl

/-- Inversion for a successful extraction: the emitted rating is the parsed
aria-label rating, and the emitted body is the isolated body line with the
empty case replaced by the placeholder. -/
theorem extractAnchor_some (a : Anchor) (r : Review) (h : extractAnchor a = some r) :
    r.rating = ratingFromAria a.aria ∧
    r.review_text = if rawBodyOf a = "" then "(no text)" else rawBodyOf a := by
  cases hw : walkUp a.ancestors with
  | none => rw [extractAnchor, hw] at h; cases h
  | some ft =>
    simp only [extractAnchor, hw] at h
    simp only [rawBodyOf, hw]
    split at h
    case isTrue hemit =>
      injection h with h
      subst h
      refine ⟨rfl, ?_⟩
      by_cases hb : bestBody (linesOf ft.data) (parseUsername ft.data (linesOf ft.data))
          (parseDate ft.data) (parseItemVariant (linesOf ft.data)) = []
      · rw [hb]
        dsimp only
        decide
      · simp [hb, List.isEmpty_iff, asString_eq_empty]
    case isFalse => cases h

theorem extractAnchor_text_ne (a : Anchor) (r : Review) (h : extractAnchor a = some r) :
    r.review_text ≠ "" := by
  rw [(extractAnchor_some a r h).2]
  split
  · decide
  · assumption

/-- The upward walk returns `none` (anchor skipped) exactly when the chain
is shorter than the 12-step bound and no walked ancestor matches. -/
theorem walkAux_none_iff (anc : List String) :
    ∀ n : Nat, 0 < n →
      (walkAux n anc = none ↔ anc.length < n ∧ ∀ t ∈ anc, containerCond t = false) := by
  induction anc with
  | nil =>
    intro n hn
    cases n with
    | zero => exact absurd hn (by decide)
    | succ m => simp [walkAux, Nat.succ_pos]
  | cons t rest ih =>
    intro n hn
    cases n with
    | zero => exact absurd hn (by decide)
    | succ m =>
      by_cases hc : containerCond t
      · simp only [walkAux, hc, if_true]
        constructor
        · intro h; cases h
        · rintro ⟨_, hall⟩
          exact absurd (hall t (List.mem_cons_self _ _)) (by simp [hc])
      · by_cases hm0 : m = 0
        · subst hm0
          constructor
          · intro h
            rw [show walkAux (0 + 1) (t :: rest) = some t from by simp [walkAux, hc]] at h
            cases h
          · rintro ⟨h1, _⟩
            exact absurd h1 (by simp)
        · rw [show walkAux (m + 1) (t :: rest) = walkAux m rest from by
            simp [walkAux, hc, hm0]]
          rw [ih m (Nat.pos_of_ne_zero hm0)]
          constructor
          · rintro ⟨h1, h2⟩
            refine ⟨by simpa using Nat.succ_lt_succ h1, ?_⟩
            intro x hx
            rcases List.mem_cons.mp hx with hx | hx
            · subst hx; simpa using hc
            · exact h2 x hx
          · rintro ⟨h1, h2⟩
            exact ⟨by simpa using Nat.lt_of_succ_lt_succ (by simpa using h1),
              fun x hx => h2 x (List.mem_cons_of_mem _ hx)⟩

/-- Counterexample to C3: no walked ancestor satisfies the
length-and-marker condition, yet the anchor is not skipped — the code keeps
the 12th ancestor as container and emits a Review. -/
theorem claim_C3_counterexample :
    allAncestorsUnmatched c3Anchor = true ∧
      extractPage [c3Anchor] = [⟨"short text", 5, "(no text)", "", ""⟩] :=
  ⟨by decide, by decide⟩

/-- Claim C3 as amended: the container walk skips an anchor only when the
ancestor chain runs out (fewer ancestors than the 12-step bound, none
matching); when 12 ancestors exist and none matches, the 12th is used as
the container and the anchor can still contribute a Review. -/
theorem claim_C3_amended :
    ∀ a : Anchor,
      (walkUp a.ancestors = none → extractAnchor a = none) ∧
      (walkUp a.ancestors = none ↔
        a.ancestors.length < 12 ∧ allAncestorsUnmatched a = true) := by
  intro a
  constructor
  · intro h
    rw [extractAnchor, h]
  · rw [walkUp, walkAux_none_iff a.ancestors 12 (by decide)]
    unfold allAncestorsUnmatched
    constructor
    · rintro ⟨h1, h2⟩
      exact ⟨h1, List.all_eq_true.mpr (fun t ht => by simp [h2 t ht])⟩
    · rintro ⟨h1, h2⟩
      refine ⟨h1, fun t ht => ?_⟩
      have := List.all_eq_true.mp h2 t ht
      simpa using this

/-- Witness for the amended C3: a run-off-the-tree walk skips the anchor. -/
theorem claim_C3_witness : extractAnchor c3WitnessAnchor = none :=
  (claim_C3_amended c3WitnessAnchor).1 (by decide)

/-- Counterexample to C5: the extractor emits a Review with rating 6 — the
parsed value is rounded but never clamped to the 0–5 range. -/
theorem claim_C5_counterexample :
    (extractPage [c5Anchor]).map Review.rating = [6] ∧ ¬(6 ≤ 5) :=
  ⟨by decide, by decide⟩

theorem roundRating_le (i : Nat) (f : List Char)
    (h : i < 5 ∨ (i = 5 ∧ ∀ c ∈ f, c = '0')) : roundRating (i, f) ≤ 5 := by
  unfold roundRating
  cases f with
  | nil =>
    dsimp only
    rcases h with h | ⟨h, _⟩ <;> omega
  | cons c t =>
    dsimp only
    rcases h with h | ⟨h5, hall⟩
    · split <;> omega
    · have hc : c = '0' := hall c (List.mem_cons_self _ _)
      subst hc
      rw [if_neg (by decide)]
      omega

theorem ratingFromAria_le (s : String) (h : matchedAtMost5 s = true) :
    ratingFromAria s ≤ 5 := by
  unfold matchedAtMost5 at h
  unfold ratingFromAria
  cases hf : findRatingNum s.data with
  | none =>
    dsimp only
    omega
  | some m =>
    obtain ⟨i, f⟩ := m
    rw [hf] at h
    dsimp only at h ⊢
    simp only [Bool.or_eq_true, Bool.and_eq_true, decide_eq_true_eq,
      List.all_eq_true] at h
    exact roundRating_le i f h

/-- Claim C5 as amended: every emitted Review's rating equals
`Math.round` of the number captured by the `Rating: N out of 5` regex
(0 when there is no match); it is bounded by 5 whenever the captured value
is at most 5 — as on all genuine site labels — but an aria-label with a
larger captured number produces a rating above 5 (no clamping). -/
theorem claim_C5_amended :
    (∀ (a : Anchor) (r : Review), extractAnchor a = some r →
      r.rating = ratingFromAria a.aria) ∧
    (∀ s : String, matchedAtMost5 s = true → ratingFromAria s ≤ 5) :=
  ⟨fun a r h => (extractAnchor_some a r h).1, ratingFromAria_le⟩

/-- Witness for the amended C5 at a concrete genuine-shaped label. -/
theorem claim_C5_witness :
    c5WitnessReview.rating = ratingFromAria c5WitnessAnchor.aria ∧
      ratingFromAria c5WitnessAnchor.aria ≤ 5 :=
  ⟨claim_C5_amended.1 c5WitnessAnchor c5WitnessReview (by decide),
   claim_C5_amended.2 c5WitnessAnchor.aria (by decide)⟩

/-! ## C10: placeholder bodies, fingerprints and the dead empty-key branch -/

theorem fpKey_ne_empty {r : Review} (h : r.review_text ≠ "") : fpKey r ≠ "" := by
  unfold fpKey
  cases hd : r.review_text.data with
  | nil =>
    exfalso
    apply h
    calc r.review_text = ⟨r.review_text.data⟩ := rfl
      _ = ⟨[]⟩ := by rw [hd]
  | cons c t =>
    rw [show (c :: t).take 50 = c :: t.take 49 from rfl]
    rw [Ne, asString_eq_empty]
    simp

theorem goodAcc_mergeOne {st : AccState} {r : Review} (h : goodAcc st) :
    goodAcc (mergeOne st r) := by
  unfold mergeOne
  split
  case isTrue hc =>
    obtain ⟨hk, hm⟩ := hc
    constructor
    · show ((st.reviews ++ [r]).map fpKey).Nodup
      rw [List.map_append, List.nodup_append]
      refine ⟨h.1, List.nodup_singleton _, ?_⟩
      intro x hx hx2
      simp only [List.map_cons, List.map_nil, List.mem_singleton] at hx2
      subst hx2
      rcases List.mem_map.mp hx with ⟨r', hr', hk'⟩
      exact hm (hk' ▸ h.2 r' hr')
    · intro x hx
      rcases List.mem_append.mp hx with hx | hx
      · exact List.mem_cons_of_mem _ (h.2 x hx)
      · simp only [List.mem_singleton] at hx
        subst hx
        exact List.mem_cons_self _ _
  case isFalse => exact h

theorem goodAcc_mergePage (rs : List Review) :
    ∀ st : AccState, goodAcc st → goodAcc (mergePage st rs) := by
  induction rs with
  | nil => exact fun st h => h
  | cons a t ih =>
    intro st h
    rw [mergePage_cons]
    exact ih (mergeOne st a) (goodAcc_mergeOne h)

theorem goodAcc_final (pages : List (List Anchor)) : goodAcc (finalState pages) := by
  unfold finalState
  have base : goodAcc ⟨[], []⟩ := ⟨List.nodup_nil, fun r h => absurd h (List.not_mem_nil r)⟩
  generalize hst : (⟨[], []⟩ : AccState) = st at base
  clear hst
  induction pages generalizing st with
  | nil => exact base
  | cons p ps ih => exact ih (mergePage st (extractPage p)) (goodAcc_mergePage _ st base)

theorem nodup_const_length {ks : List String} {c : String} (h : ks.Nodup)
    (hc : ∀ k ∈ ks, k = c) : ks.length ≤ 1 := by
  cases ks with
  | nil => simp
  | cons a t =>
    cases t with
    | nil => simp
    | cons b u =>
      exfalso
      have ha := hc a (List.mem_cons_self _ _)
      have hb := hc b (List.mem_cons_of_mem _ (List.mem_cons_self _ _))
      rw [List.nodup_cons] at h
      have hab : a = b := by rw [ha, hb]
      exact h.1 (hab ▸ List.mem_cons_self b u)

theorem mergePage_eq_noEmpty (rs : List Review) :
    ∀ st : AccState, (∀ r ∈ rs, fpKey r ≠ "") →
      mergePage st rs = mergePageNoEmpty st rs := by
  induction rs with
  | nil => intro st _; rfl
  | cons a t ih =>
    intro st h
    have h1 : mergeOne st a = mergeOneNoEmpty st a := by
      unfold mergeOne mergeOneNoEmpty
      have hk := h a (List.mem_cons_self _ _)
      by_cases hm : fpKey a ∈ st.seen
      · rw [if_neg (by rintro ⟨_, h2⟩; exact h2 hm), if_neg (by intro h2; exact h2 hm)]
      · rw [if_pos ⟨hk, hm⟩, if_pos hm]
    show mergePage (mergeOne st a) t = mergePageNoEmpty (mergeOneNoEmpty st a) t
    rw [← h1]
    exact ih (mergeOne st a) (fun r hr => h r (List.mem_cons_of_mem _ hr))

/-- Claim C10: a review accepted without an isolatable body line gets the
literal placeholder `(no text)`; every emitted review's stored body is
non-empty, so the dedup guard's empty-key branch never fires on extractor
output (the merge equals the merge without that guard); and since all
placeholder bodies share one fingerprint, the whole job's final list
retains at most one such review. -/
theorem claim_C10 :
    (∀ (a : Anchor) (r : Review), extractAnchor a = some r → r.review_text ≠ "") ∧
    (∀ (a : Anchor) (r : Review), extractAnchor a = some r → rawBodyOf a = "" →
      r.review_text = "(no text)") ∧
    (∀ pages : List (List Anchor),
      ((finalReviews pages).filter
        (fun r => decide (r.review_text = "(no text)"))).length ≤ 1) ∧
    (∀ (st : AccState) (p : List Anchor),
      mergePage st (extractPage p) = mergePageNoEmpty st (extractPage p)) := by
  refine ⟨extractAnchor_text_ne, ?_, ?_, ?_⟩
  · intro a r h h2
    rw [(extractAnchor_some a r h).2, if_pos h2]
  · intro pages
    have hnd : ((finalReviews pages).map fpKey).Nodup := (goodAcc_final pages).1
    set f := (finalReviews pages).filter
      (fun r => decide (r.review_text = "(no text)")) with hf
    have hsub : f.Sublist (finalReviews pages) := List.filter_sublist _
    have hnd2 : (f.map fpKey).Nodup := hnd.sublist (hsub.map fpKey)
    have hconst : ∀ k ∈ f.map fpKey, k = "(no text)" := by
      intro k hk
      rcases List.mem_map.mp hk with ⟨r, hr, rfl⟩
      have hr2 : r.review_text = "(no text)" := by
        have := (List.mem_filter.mp hr).2
        simpa using this
      unfold fpKey
      rw [hr2]
      decide
    calc f.length = (f.map fpKey).length := (List.length_map f fpKey).symm
      _ ≤ 1 := nodup_const_length hnd2 hconst
  · intro st p
    exact mergePage_eq_noEmpty (extractPage p) st
      (fun r hr => by
        rcases List.mem_filterMap.mp hr with ⟨a, _, ha⟩
        exact fpKey_ne_empty (extractAnchor_text_ne a r ha))

/-- Witness for C10 at a concrete body-less review. -/
theorem claim_C10_witness :
    c10Review.review_text ≠ "" ∧ c10Review.review_text = "(no text)" :=
  ⟨claim_C10.1 c10Anchor c10Review (by decide),
   claim_C10.2.1 c10Anchor c10Review (by decide) (by decide)⟩

/-! ## Trace-model lemmas -/

@[simp] theorem isTerminalW_message (s : String) : isTerminalW (.message s) = false := rfl

@[simp] theorem isTerminalW_progress (n : Nat) : isTerminalW (.progress n) = false := rfl

@[simp] theorem isTerminalW_internal (s : String) : isTerminalW (.internal s) = false := rfl

@[simp] theorem isTerminalW_currentPage (n : Nat) : isTerminalW (.currentPage n) = false := rfl

@[simp] theorem isTerminalW_maxPagesField (n : Nat) :
    isTerminalW (.maxPagesField n) = false := rfl

@[simp] theorem isTerminalW_reviewsField (rs : List Review) :
    isTerminalW (.reviewsField rs) = false := rfl

@[simp] theorem isTerminalW_reviewCount (n : Nat) : isTerminalW (.reviewCount n) = false := rfl

@[simp] theorem isTerminalW_error : isTerminalW (.status "error") = true := by decide

@[simp] theorem isTerminalW_complete : isTerminalW (.status "complete") = true := by decide

@[simp] theorem isTerminalW_starting : isTerminalW (.status "starting") = false := by decide

@[simp] theorem isTerminalW_captcha : isTerminalW (.status "captcha") = false := by decide

@[simp] theorem isTerminalW_scraping : isTerminalW (.status "scraping") = false := by decide

@[simp] theorem allowedAfterTerminal_message (s : String) :
    allowedAfterTerminal (.message s) = true := rfl

@[simp] theorem allowedAfterTerminal_progress (n : Nat) :
    allowedAfterTerminal (.progress n) = true := rfl

@[simp] theorem allowedAfterTerminal_internal (s : String) :
    allowedAfterTerminal (.internal s) = true := rfl

@[simp] theorem allowedAfterTerminal_error :
    allowedAfterTerminal (.status "error") = true := by decide

@[simp] theorem isCurrentPageW_message (s : String) : isCurrentPageW (.message s) = false := rfl

@[simp] theorem isCurrentPageW_status (s : String) : isCurrentPageW (.status s) = false := rfl

@[simp] theorem isCurrentPageW_progress (n : Nat) : isCurrentPageW (.progress n) = false := rfl

@[simp] theorem isCurrentPageW_internal (s : String) :
    isCurrentPageW (.internal s) = false := rfl

@[simp] theorem isCurrentPageW_maxPagesField (n : Nat) :
    isCurrentPageW (.maxPagesField n) = false := rfl

@[simp] theorem isCurrentPageW_reviewsField (rs : List Review) :
    isCurrentPageW (.reviewsField rs) = false := rfl

@[simp] theorem isCurrentPageW_reviewCount (n : Nat) :
    isCurrentPageW (.reviewCount n) = false := rfl

@[simp] theorem isCurrentPageW_currentPage (n : Nat) :
    isCurrentPageW (.currentPage n) = true := rfl

theorem all_imp {α : Type} {p q : α → Bool} (h : ∀ a, p a = true → q a = true)
    (l : List α) (hl : l.all p = true) : l.all q = true := by
  rw [List.all_eq_true] at *
  exact fun a ha => h a (hl a ha)

theorem dropWhile_append_all {α : Type} (p : α → Bool) (l₁ l₂ : List α)
    (h : ∀ a ∈ l₁, p a = true) : (l₁ ++ l₂).dropWhile p = l₂.dropWhile p := by
  induction l₁ with
  | nil => rfl
  | cons a t ih =>
    rw [List.cons_append, List.dropWhile_cons, if_pos (h a (List.mem_cons_self _ _))]
    exact ih (fun x hx => h x (List.mem_cons_of_mem _ hx))

theorem afterFirstTerminal_skip (a b : List JWrite)
    (h : a.all (fun w => !isTerminalW w) = true) :
    afterFirstTerminal (a ++ b) = afterFirstTerminal b := by
  unfold afterFirstTerminal
  rw [dropWhile_append_all _ a b (fun w hw => List.all_eq_true.mp h w hw)]

theorem terminalCount_append (a b : List JWrite) :
    terminalCount (a ++ b) = terminalCount a + terminalCount b := by
  simp [terminalCount, List.filter_append]

theorem count_zero_of_all_not {p : JWrite → Bool} (tr : List JWrite)
    (h : tr.all (fun w => !p w) = true) : (tr.filter p).length = 0 := by
  have hnil : tr.filter p = [] := by
    rw [List.filter_eq_nil_iff]
    intro a ha
    have := List.all_eq_true.mp h a ha
    simp at this
    simp [this]
  rw [hnil]
  rfl

theorem internal_not_terminalW (w : JWrite) (h : isInternalW w = true) :
    (!isTerminalW w) = true := by
  cases w <;> simp [isInternalW] at h ⊢

theorem loopW_not_terminalW (w : JWrite) (h : isLoopW w = true) :
    (!isTerminalW w) = true := by
  cases w <;> simp [isLoopW] at h ⊢

theorem internal_not_currentPageW (w : JWrite) (h : isInternalW w = true) :
    (!isCurrentPageW w) = true := by
  cases w <;> simp [isInternalW] at h ⊢

theorem captchaLoop_all_internal :
    ∀ (n : Nat) (pg : Nat → PageView), (captchaLoop n pg).1.all isInternalW = true := by
  intro n
  induction n with
  | zero => intro pg; rfl
  | succ m ih =>
    intro pg
    by_cases hc : (hasContent (pg 0)).isSome
    · simp [captchaLoop, hc, isInternalW]
    · simp [captchaLoop, hc, isInternalW, ih]

theorem captchaLoop_not_solved :
    ∀ (n : Nat) (pg : Nat → PageView),
      (∀ t, t < n → hasContent (pg t) = none) → (captchaLoop n pg).2 = false := by
  intro n
  induction n with
  | zero => intro pg _; rfl
  | succ m ih =>
    intro pg h
    have h0 : hasContent (pg 0) = none := h 0 (Nat.succ_pos m)
    have hc : (hasContent (pg 0)).isSome = false := by simp [h0]
    simp [captchaLoop, hc]
    exact ih (fun t => pg (t + 1)) (fun t ht => h (t + 1) (Nat.succ_lt_succ ht))

theorem scrapeGo_all_loopW (env : ScrapeEnv) :
    ∀ (r cur : Nat) (st : AccState), (scrapeGo env r cur st).1.all isLoopW = true := by
  intro r
  induction r with
  | zero => intro cur st; rfl
  | succ k ih =>
    intro cur st
    by_cases hr : env.raiseAt cur
    · simp [scrapeGo, hr, isLoopW]
    · by_cases hk : k = 0
      · subst hk
        simp [scrapeGo, hr, isLoopW]
      · cases hc : env.clickResult cur with
        | some s => simp [scrapeGo, hr, hk, hc, isLoopW, ih]
        | none => simp [scrapeGo, hr, hk, hc, isLoopW]

theorem scrapeGo_iter_le (env : ScrapeEnv) :
    ∀ (r cur : Nat) (st : AccState), pageIterCount (scrapeGo env r cur st).1 ≤ r := by
  intro r
  induction r with
  | zero => intro cur st; simp [scrapeGo, pageIterCount]
  | succ k ih =>
    intro cur st
    by_cases hr : env.raiseAt cur
    · simp [scrapeGo, hr, pageIterCount]
    · by_cases hk : k = 0
      · subst hk
        simp [scrapeGo, hr, pageIterCount]
      · cases hc : env.clickResult cur with
        | some s =>
          have h2 := ih (cur + 1) (mergePage st (env.pageReviews cur))
          simp [scrapeGo, hr, hk, hc, pageIterCount, List.filter_append] at h2 ⊢
          omega
        | none =>
          simp [scrapeGo, hr, hk, hc, pageIterCount, List.filter_append]

theorem prefix_all_nonterminal (n : Nat) (pg : Nat → PageView) :
    (startWrites ++ preCaptchaWrites ++ (captchaLoop n pg).1).all
      (fun w => !isTerminalW w) = true := by
  simp only [List.all_append, Bool.and_eq_true]
  refine ⟨⟨by decide, by decide⟩, ?_⟩
  exact all_imp internal_not_terminalW _ (captchaLoop_all_internal n pg)

theorem prefix2_all_nonterminal (env : ScrapeEnv) :
    (startWrites ++ preCaptchaWrites ++ (captchaLoop env.ticks env.pages).1 ++
      preLoopWrites ++ (scrapeGo env env.maxPages 1 ⟨[], []⟩).1).all
      (fun w => !isTerminalW w) = true := by
  simp only [List.all_append, Bool.and_eq_true]
  refine ⟨⟨⟨⟨by decide, by decide⟩, ?_⟩, by decide⟩, ?_⟩
  · exact all_imp internal_not_terminalW _ (captchaLoop_all_internal env.ticks env.pages)
  · exact all_imp loopW_not_terminalW _ (scrapeGo_all_loopW env env.maxPages 1 ⟨[], []⟩)

theorem runJob_import_fail (env : ScrapeEnv) (h : env.importOk = false) :
    runJob env =
      startWrites ++ [JWrite.status "error", JWrite.message "Playwright not installed."] := by
  simp [runJob, h]

theorem runJob_launch_fail (env : ScrapeEnv) (h1 : env.importOk = true)
    (h2 : env.launchOk = false) :
    runJob env = startWrites ++ [JWrite.status "error",
      JWrite.message ("Error: " ++ env.errText), JWrite.internal "_browser_closed"] := by
  simp [runJob, h1, h2]

theorem runJob_timeout (env : ScrapeEnv) (h1 : env.importOk = true)
    (h2 : env.launchOk = true) (h3 : (captchaLoop env.ticks env.pages).2 = false) :
    runJob env = startWrites ++ preCaptchaWrites ++ (captchaLoop env.ticks env.pages).1 ++
      [JWrite.status "error",
       JWrite.message "CAPTCHA was not solved in time. Please try again.",
       JWrite.internal "_browser_closed"] := by
  simp [runJob, h1, h2, h3]

theorem runJob_loop_raise (env : ScrapeEnv) (h1 : env.importOk = true)
    (h2 : env.launchOk = true) (h3 : (captchaLoop env.ticks env.pages).2 = true)
    (h4 : (scrapeGo env env.maxPages 1 ⟨[], []⟩).2 = none) :
    runJob env = startWrites ++ preCaptchaWrites ++ (captchaLoop env.ticks env.pages).1 ++
      preLoopWrites ++ (scrapeGo env env.maxPages 1 ⟨[], []⟩).1 ++
      [JWrite.status "error", JWrite.message ("Error: " ++ env.errText),
       JWrite.internal "_browser_closed"] := by
  simp [runJob, h1, h2, h3, h4]

theorem runJob_complete (env : ScrapeEnv) (st : AccState) (h1 : env.importOk = true)
    (h2 : env.launchOk = true) (h3 : (captchaLoop env.ticks env.pages).2 = true)
    (h4 : (scrapeGo env env.maxPages 1 ⟨[], []⟩).2 = some st) (h5 : env.closeOk = true) :
    runJob env = startWrites ++ preCaptchaWrites ++ (captchaLoop env.ticks env.pages).1 ++
      preLoopWrites ++ (scrapeGo env env.maxPages 1 ⟨[], []⟩).1 ++
      [JWrite.status "complete",
       JWrite.message ("Done! Found " ++ natStr st.reviews.length ++ " reviews"),
       JWrite.progress 100, JWrite.internal "_browser_closed"] := by
  simp [runJob, h1, h2, h3, h4, h5]

theorem runJob_complete_closeFail (env : ScrapeEnv) (st : AccState)
    (h1 : env.importOk = true) (h2 : env.launchOk = true)
    (h3 : (captchaLoop env.ticks env.pages).2 = true)
    (h4 : (scrapeGo env env.maxPages 1 ⟨[], []⟩).2 = some st) (h5 : env.closeOk = false) :
    runJob env = startWrites ++ preCaptchaWrites ++ (captchaLoop env.ticks env.pages).1 ++
      preLoopWrites ++ (scrapeGo env env.maxPages 1 ⟨[], []⟩).1 ++
      [JWrite.status "complete",
       JWrite.message ("Done! Found " ++ natStr st.reviews.length ++ " reviews"),
       JWrite.progress 100, JWrite.status "error",
       JWrite.message ("Error: " ++ env.errText), JWrite.internal "_browser_closed"] := by
  simp [runJob, h1, h2, h3, h4, h5]

theorem progressValues_append (a b : List JWrite) :
    progressValues (a ++ b) = progressValues a ++ progressValues b := by
  simp [progressValues]

theorem progressValues_internal_nil (tr : List JWrite) (h : tr.all isInternalW = true) :
    progressValues tr = [] := by
  unfold progressValues
  rw [List.filterMap_eq_nil_iff]
  intro w hw
  have := List.all_eq_true.mp h w hw
  cases w <;> simp [isInternalW] at this ⊢

theorem progress_le_100 {c m : Nat} (h : c ≤ m) : c * 100 / m ≤ 100 := by
  cases m with
  | zero => simp [Nat.le_zero.mp h]
  | succ k =>
    have h2 : c * 100 / (k + 1) ≤ (k + 1) * 100 / (k + 1) :=
      Nat.div_le_div_right (Nat.mul_le_mul_right _ h)
    rwa [Nat.mul_div_cancel_left 100 (Nat.succ_pos k)] at h2

theorem progress_mono_succ (c m : Nat) : c * 100 / m ≤ (c + 1) * 100 / m :=
  Nat.div_le_div_right (Nat.mul_le_mul_right _ (Nat.le_succ c))

/-- The progress values written by the scraping loop: monotone, bounded by
100, and at least the value of the entry page. -/
theorem scrapeGo_progress (env : ScrapeEnv) :
    ∀ (r cur : Nat) (st : AccState), cur + r ≤ env.maxPages + 1 →
      (progressValues (scrapeGo env r cur st).1).Pairwise (· ≤ ·) ∧
      ∀ v ∈ progressValues (scrapeGo env r cur st).1,
        cur * 100 / env.maxPages ≤ v ∧ v ≤ 100 := by
  intro r
  induction r with
  | zero =>
    intro cur st _
    constructor
    · simp [scrapeGo, progressValues]
    · intro v hv
      simp [scrapeGo, progressValues] at hv
  | succ k ih =>
    intro cur st hle
    have hcur : cur ≤ env.maxPages := by omega
    have h100 : cur * 100 / env.maxPages ≤ 100 := progress_le_100 hcur
    by_cases hr : env.raiseAt cur
    · have hshape : progressValues (scrapeGo env (k + 1) cur st).1 =
          [cur * 100 / env.maxPages] := by
        simp [scrapeGo, hr, progressValues]
      rw [hshape]
      refine ⟨List.pairwise_singleton _ _, ?_⟩
      intro v hv
      simp at hv
      subst hv
      exact ⟨Nat.le_refl _, h100⟩
    · by_cases hk : k = 0
      · subst hk
        have hshape : progressValues (scrapeGo env (0 + 1) cur st).1 =
            [cur * 100 / env.maxPages] := by
          simp [scrapeGo, hr, progressValues]
        rw [hshape]
        refine ⟨List.pairwise_singleton _ _, ?_⟩
        intro v hv
        simp at hv
        subst hv
        exact ⟨Nat.le_refl _, h100⟩
      · cases hc : env.clickResult cur with
        | none =>
          have hshape : progressValues (scrapeGo env (k + 1) cur st).1 =
              [cur * 100 / env.maxPages] := by
            simp [scrapeGo, hr, hk, hc, progressValues]
          rw [hshape]
          refine ⟨List.pairwise_singleton _ _, ?_⟩
          intro v hv
          simp at hv
          subst hv
          exact ⟨Nat.le_refl _, h100⟩
        | some s =>
          obtain ⟨ihp, ihb⟩ := ih (cur + 1) (mergePage st (env.pageReviews cur)) (by omega)
          have hshape : progressValues (scrapeGo env (k + 1) cur st).1 =
              cur * 100 / env.maxPages ::
                progressValues
                  (scrapeGo env k (cur + 1) (mergePage st (env.pageReviews cur))).1 := by
            simp [scrapeGo, hr, hk, hc, progressValues]
          rw [hshape]
          have hmono := progress_mono_succ cur env.maxPages
          constructor
          · rw [List.pairwise_cons]
            exact ⟨fun v hv => le_trans hmono (ihb v hv).1, ihp⟩
          · intro v hv
            rcases List.mem_cons.mp hv with rfl | hv
            · exact ⟨Nat.le_refl _, h100⟩
            · exact ⟨le_trans hmono (ihb v hv).1, (ihb v hv).2⟩

/-! ## Per-block trace observations -/

theorem terminalCount_zero_of (tr : List JWrite)
    (h : tr.all (fun w => !isTerminalW w) = true) : terminalCount tr = 0 :=
  count_zero_of_all_not tr h

theorem pageIterCount_append (a b : List JWrite) :
    pageIterCount (a ++ b) = pageIterCount a + pageIterCount b := by
  simp [pageIterCount, List.filter_append]

theorem pageIterCount_zero_of (tr : List JWrite)
    (h : tr.all (fun w => !isCurrentPageW w) = true) : pageIterCount tr = 0 :=
  count_zero_of_all_not tr h

theorem terminalCount_errBlock (m : String) :
    terminalCount [JWrite.status "error", JWrite.message m,
      JWrite.internal "_browser_closed"] = 1 := by
  simp [terminalCount, List.filter_cons]

theorem terminalCount_completeBlock (m : String) :
    terminalCount [JWrite.status "complete", JWrite.message m, JWrite.progress 100,
      JWrite.internal "_browser_closed"] = 1 := by
  simp [terminalCount, List.filter_cons]

theorem terminalCount_completeErrBlock (m e : String) :
    terminalCount [JWrite.status "complete", JWrite.message m, JWrite.progress 100,
      JWrite.status "error", JWrite.message e, JWrite.internal "_browser_closed"] = 2 := by
  simp [terminalCount, List.filter_cons]

theorem terminalCount_startWrites : terminalCount startWrites = 0 := by decide

theorem allowed_errBlock (m : String) :
    (afterFirstTerminal [JWrite.status "error", JWrite.message m,
      JWrite.internal "_browser_closed"]).all allowedAfterTerminal = true := by
  simp [afterFirstTerminal, List.dropWhile_cons]

theorem allowed_completeBlock (m : String) :
    (afterFirstTerminal [JWrite.status "complete", JWrite.message m, JWrite.progress 100,
      JWrite.internal "_browser_closed"]).all allowedAfterTerminal = true := by
  simp [afterFirstTerminal, List.dropWhile_cons]

theorem allowed_completeErrBlock (m e : String) :
    (afterFirstTerminal [JWrite.status "complete", JWrite.message m, JWrite.progress 100,
      JWrite.status "error", JWrite.message e,
      JWrite.internal "_browser_closed"]).all allowedAfterTerminal = true := by
  simp [afterFirstTerminal, List.dropWhile_cons]

theorem pageIter_startWrites : pageIterCount startWrites = 0 := by decide

theorem pageIter_errBlock (m : String) :
    pageIterCount [JWrite.status "error", JWrite.message m,
      JWrite.internal "_browser_closed"] = 0 := by
  simp [pageIterCount, List.filter_cons]

theorem pageIter_completeBlock (m : String) :
    pageIterCount [JWrite.status "complete", JWrite.message m, JWrite.progress 100,
      JWrite.internal "_browser_closed"] = 0 := by
  simp [pageIterCount, List.filter_cons]

theorem pageIter_completeErrBlock (m e : String) :
    pageIterCount [JWrite.status "complete", JWrite.message m, JWrite.progress 100,
      JWrite.status "error", JWrite.message e,
      JWrite.internal "_browser_closed"] = 0 := by
  simp [pageIterCount, List.filter_cons]

theorem prefix_no_iter (n : Nat) (pg : Nat → PageView) :
    (startWrites ++ preCaptchaWrites ++ (captchaLoop n pg).1).all
      (fun w => !isCurrentPageW w) = true := by
  simp only [List.all_append, Bool.and_eq_true]
  exact ⟨⟨by decide, by decide⟩,
    all_imp internal_not_currentPageW _ (captchaLoop_all_internal n pg)⟩

theorem prefix3_no_iter (n : Nat) (pg : Nat → PageView) :
    (startWrites ++ preCaptchaWrites ++ (captchaLoop n pg).1 ++ preLoopWrites).all
      (fun w => !isCurrentPageW w) = true := by
  simp only [List.all_append, Bool.and_eq_true]
  exact ⟨⟨⟨by decide, by decide⟩,
    all_imp internal_not_currentPageW _ (captchaLoop_all_internal n pg)⟩, by decide⟩

theorem progress_startWrites : progressValues startWrites = [] := rfl

theorem progress_preCaptcha : progressValues preCaptchaWrites = [] := rfl

theorem progress_preLoop : progressValues preLoopWrites = [] := rfl

theorem progress_errBlock (m : String) :
    progressValues [JWrite.status "error", JWrite.message m,
      JWrite.internal "_browser_closed"] = [] := by
  simp [progressValues]

theorem progress_completeBlock (m : String) :
    progressValues [JWrite.status "complete", JWrite.message m, JWrite.progress 100,
      JWrite.internal "_browser_closed"] = [100] := by
  simp [progressValues]

theorem progress_completeErrBlock (m e : String) :
    progressValues [JWrite.status "complete", JWrite.message m, JWrite.progress 100,
      JWrite.status "error", JWrite.message e,
      JWrite.internal "_browser_closed"] = [100] := by
  simp [progressValues]

/-! ## Claims about the orchestrator trace: C2, C6, C7, C9 -/

/-- Counterexample to C2: in a run where everything succeeds but the final
`browser.close()` raises, the job is set terminal twice (`complete`, then
`error` from the exception handler, app.py lines 689-702), and further
writes (the done message, the final progress) happen after the first
terminal status write. -/
theorem claim_C2_counterexample :
    terminalCount (runJob envC2) = 2 ∧ afterFirstTerminal (runJob envC2) ≠ [] :=
  ⟨by decide, by decide⟩

/-- Claim C2 as amended: every run sets a terminal status at least once and
at most twice — exactly once whenever the final browser close succeeds, the
second write happening only when closing after `complete` raises — and
every write after the first terminal status write belongs to the same
terminal transition: a message, a progress value, an internal field, or the
second `error` status. -/
theorem claim_C2_amended (env : ScrapeEnv) :
    1 ≤ terminalCount (runJob env) ∧ terminalCount (runJob env) ≤ 2 ∧
    (env.closeOk = true → terminalCount (runJob env) = 1) ∧
    (afterFirstTerminal (runJob env)).all allowedAfterTerminal = true := by
  cases h1 : env.importOk with
  | false =>
    rw [runJob_import_fail env h1]
    exact ⟨by decide, by decide, fun _ => by decide, by decide⟩
  | true =>
    cases h2 : env.launchOk with
    | false =>
      rw [runJob_launch_fail env h1 h2]
      refine ⟨?_, ?_, fun _ => ?_, ?_⟩
      · rw [terminalCount_append, terminalCount_startWrites, terminalCount_errBlock]
      · rw [terminalCount_append, terminalCount_startWrites, terminalCount_errBlock]
        omega
      · rw [terminalCount_append, terminalCount_startWrites, terminalCount_errBlock]
      · rw [afterFirstTerminal_skip startWrites _ (by decide), allowed_errBlock]
    | true =>
      cases h3 : (captchaLoop env.ticks env.pages).2 with
      | false =>
        rw [runJob_timeout env h1 h2 h3]
        have hpre := prefix_all_nonterminal env.ticks env.pages
        refine ⟨?_, ?_, fun _ => ?_, ?_⟩
        · rw [terminalCount_append, terminalCount_zero_of _ hpre, terminalCount_errBlock]
        · rw [terminalCount_append, terminalCount_zero_of _ hpre, terminalCount_errBlock]
          omega
        · rw [terminalCount_append, terminalCount_zero_of _ hpre, terminalCount_errBlock]
        · rw [afterFirstTerminal_skip _ _ hpre, allowed_errBlock]
      | true =>
        cases h4 : (scrapeGo env env.maxPages 1 ⟨[], []⟩).2 with
        | none =>
          rw [runJob_loop_raise env h1 h2 h3 h4]
          have hpre := prefix2_all_nonterminal env
          refine ⟨?_, ?_, fun _ => ?_, ?_⟩
          · rw [terminalCount_append, terminalCount_zero_of _ hpre, terminalCount_errBlock]
          · rw [terminalCount_append, terminalCount_zero_of _ hpre, terminalCount_errBlock]
            omega
          · rw [terminalCount_append, terminalCount_zero_of _ hpre, terminalCount_errBlock]
          · rw [afterFirstTerminal_skip _ _ hpre, allowed_errBlock]
        | some st =>
          cases h5 : env.closeOk with
          | true =>
            rw [runJob_complete env st h1 h2 h3 h4 h5]
            have hpre := prefix2_all_nonterminal env
            refine ⟨?_, ?_, fun _ => ?_, ?_⟩
            · rw [terminalCount_append, terminalCount_zero_of _ hpre,
                terminalCount_completeBlock]
            · rw [terminalCount_append, terminalCount_zero_of _ hpre,
                terminalCount_completeBlock]
              omega
            · rw [terminalCount_append, terminalCount_zero_of _ hpre,
                terminalCount_completeBlock]
            · rw [afterFirstTerminal_skip _ _ hpre, allowed_completeBlock]
          | false =>
            rw [runJob_complete_closeFail env st h1 h2 h3 h4 h5]
            have hpre := prefix2_all_nonterminal env
            refine ⟨?_, ?_, fun hclose => ?_, ?_⟩
            · rw [terminalCount_append, terminalCount_zero_of _ hpre,
                terminalCount_completeErrBlock]
              omega
            · rw [terminalCount_append, terminalCount_zero_of _ hpre,
                terminalCount_completeErrBlock]
            · exact absurd hclose (by simp)
            · rw [afterFirstTerminal_skip _ _ hpre, allowed_completeErrBlock]

/-- Witness for the amended C2: with a succeeding close, the run of the
witness environment is terminal exactly once. -/
theorem claim_C2_witness : terminalCount (runJob envC2w) = 1 :=
  (claim_C2_amended envC2w).2.2.1 rfl

/-- Claim C6: when the classifier never reports content during the CAPTCHA
wait, the job errors with the `not solved in time` message and never
reaches the `scraping` status. -/
theorem claim_C6 (env : ScrapeEnv) (h1 : env.importOk = true)
    (h2 : env.launchOk = true)
    (h3 : ∀ t, t < env.ticks → hasContent (env.pages t) = none) :
    JWrite.status "error" ∈ runJob env ∧
    JWrite.message "CAPTCHA was not solved in time. Please try again." ∈ runJob env ∧
    hasSub "CAPTCHA was not solved in time. Please try again.".data
      "not solved in time".data = true ∧
    JWrite.status "scraping" ∉ runJob env := by
  have hns : (captchaLoop env.ticks env.pages).2 = false :=
    captchaLoop_not_solved env.ticks env.pages h3
  rw [runJob_timeout env h1 h2 hns]
  refine ⟨?_, ?_, by decide, ?_⟩
  · exact List.mem_append.mpr (Or.inr (by decide))
  · exact List.mem_append.mpr (Or.inr (by decide))
  · intro hmem
    rcases List.mem_append.mp hmem with hmem | hmem
    · rcases List.mem_append.mp hmem with hmem | hmem
      · rcases List.mem_append.mp hmem with hmem | hmem
        · exact absurd hmem (by decide)
        · exact absurd hmem (by decide)
      · have := List.all_eq_true.mp
          (captchaLoop_all_internal env.ticks env.pages) _ hmem
        simp [isInternalW] at this
    · exact absurd hmem (by decide)

/-- Witness for C6 at a concrete never-clearing environment. -/
theorem claim_C6_witness :
    JWrite.status "error" ∈ runJob envC6 ∧
    JWrite.message "CAPTCHA was not solved in time. Please try again." ∈ runJob envC6 ∧
    hasSub "CAPTCHA was not solved in time. Please try again.".data
      "not solved in time".data = true ∧
    JWrite.status "scraping" ∉ runJob envC6 :=
  claim_C6 envC6 rfl rfl (by decide)

/-- Claim C7: in every environment — even one whose pagination click always
reports success — the scraping loop runs at most `max_pages` iterations
(the run is a total function of the environment, so it terminates by
construction). -/
theorem claim_C7 (env : ScrapeEnv) : pageIterCount (runJob env) ≤ env.maxPages := by
  cases h1 : env.importOk with
  | false =>
    rw [runJob_import_fail env h1]
    rw [show pageIterCount (startWrites ++ [JWrite.status "error",
      JWrite.message "Playwright not installed."]) = 0 from by decide]
    exact Nat.zero_le _
  | true =>
    cases h2 : env.launchOk with
    | false =>
      rw [runJob_launch_fail env h1 h2]
      rw [pageIterCount_append, pageIter_startWrites, pageIter_errBlock]
      exact Nat.zero_le _
    | true =>
      cases h3 : (captchaLoop env.ticks env.pages).2 with
      | false =>
        rw [runJob_timeout env h1 h2 h3]
        rw [pageIterCount_append,
          pageIterCount_zero_of _ (prefix_no_iter env.ticks env.pages), pageIter_errBlock]
        exact Nat.zero_le _
      | true =>
        have hloop := scrapeGo_iter_le env env.maxPages 1 ⟨[], []⟩
        cases h4 : (scrapeGo env env.maxPages 1 ⟨[], []⟩).2 with
        | none =>
          rw [runJob_loop_raise env h1 h2 h3 h4]
          rw [pageIterCount_append, pageIterCount_append,
            pageIterCount_zero_of _ (prefix3_no_iter env.ticks env.pages),
            pageIter_errBlock]
          omega
        | some st =>
          cases h5 : env.closeOk with
          | true =>
            rw [runJob_complete env st h1 h2 h3 h4 h5]
            rw [pageIterCount_append, pageIterCount_append,
              pageIterCount_zero_of _ (prefix3_no_iter env.ticks env.pages),
              pageIter_completeBlock]
            omega
          | false =>
            rw [runJob_complete_closeFail env st h1 h2 h3 h4 h5]
            rw [pageIterCount_append, pageIterCount_append,
              pageIterCount_zero_of _ (prefix3_no_iter env.ticks env.pages),
              pageIter_completeErrBlock]
            omega

/-- Claim C9: the sequence of every `progress` value a run writes is
non-decreasing — in particular progress never decreases during the
scraping loop, and the completion write of 100 is at least every earlier
value. -/
theorem claim_C9 (env : ScrapeEnv) :
    (progressValues (runJob env)).Pairwise (· ≤ ·) := by
  cases h1 : env.importOk with
  | false =>
    rw [runJob_import_fail env h1]
    decide
  | true =>
    cases h2 : env.launchOk with
    | false =>
      rw [runJob_launch_fail env h1 h2]
      rw [progressValues_append, progress_startWrites, progress_errBlock]
      simp
    | true =>
      have hcnil : progressValues (captchaLoop env.ticks env.pages).1 = [] :=
        progressValues_internal_nil _ (captchaLoop_all_internal env.ticks env.pages)
      cases h3 : (captchaLoop env.ticks env.pages).2 with
      | false =>
        rw [runJob_timeout env h1 h2 h3]
        rw [progressValues_append, progressValues_append, progressValues_append,
          progress_startWrites, progress_preCaptcha, hcnil, progress_errBlock]
        simp
      | true =>
        obtain ⟨hp, hbound⟩ := scrapeGo_progress env env.maxPages 1 ⟨[], []⟩ (by omega)
        cases h4 : (scrapeGo env env.maxPages 1 ⟨[], []⟩).2 with
        | none =>
          rw [runJob_loop_raise env h1 h2 h3 h4]
          rw [progressValues_append, progressValues_append, progressValues_append,
            progressValues_append, progressValues_append, progress_startWrites,
            progress_preCaptcha, hcnil, progress_preLoop, progress_errBlock]
          simpa using hp
        | some st =>
          cases h5 : env.closeOk with
          | true =>
            rw [runJob_complete env st h1 h2 h3 h4 h5]
            rw [progressValues_append, progressValues_append, progressValues_append,
              progressValues_append, progressValues_append, progress_startWrites,
              progress_preCaptcha, hcnil, progress_preLoop, progress_completeBlock]
            simp only [List.nil_append]
            rw [List.pairwise_append]
            refine ⟨hp, by simp, ?_⟩
            intro a ha b hb
            have hb100 : b = 100 := by simpa using hb
            subst hb100
            exact (hbound a ha).2
          | false =>
            rw [runJob_complete_closeFail env st h1 h2 h3 h4 h5]
            rw [progressValues_append, progressValues_append, progressValues_append,
              progressValues_append, progressValues_append, progress_startWrites,
              progress_preCaptcha, hcnil, progress_preLoop, progress_completeErrBlock]
            simp only [List.nil_append]
            rw [List.pairwise_append]
            refine ⟨hp, by simp, ?_⟩
            intro a ha b hb
            have hb100 : b = 100 := by simpa using hb
            subst hb100
            exact (hbound a ha).2

end TikTokScraper
